import Mathlib

/-!
Verification of the anacostia-pipeline execution core: a shallow embedding
in Lean 4 of the signal-expression language, the node runtime, the resource
guard, the pipeline controller and the barrier node, together with theorems
settling the specification claims against the embedded code.
-/

namespace Anacostia

/-- Modelled from the spec: the `Status` enumeration lives in
`engine/constants.py`, which is absent from the sources; its values are the
lifecycle states of spec §3 plus the two message outcomes `SUCCESS` and
`FAILURE` that `node.py` reads off the same enumeration. -/
inductive Status where
  | OFF | INIT | RUNNING | PAUSED | STOPPING | EXITED | ERROR
  | SUCCESS | FAILURE
  deriving DecidableEq, Repr

/-- Modelled from the spec: the `ASTOperation` enumeration lives in
`engine/constants.py`, absent from the sources; `node.py` uses exactly the
four operators NOT, AND, OR, XOR. -/
inductive ASTOperation where
  | NOT | AND | OR | XOR
  deriving DecidableEq, Repr

/-- The `Message` record from `node.py`: sender name, signal type, timestamp, status. -/
structure Message where
  sender : String
  signal_type : String
  timestamp : Nat
  status : Option Status
  deriving DecidableEq, Repr

/-- The `SignalAST` tree of `node.py`: a parameter of an operator node is
either a `BaseNode` reference (only its name matters to evaluation) or a
sub-tree. -/
inductive SigExpr where
  | nodeRef (name : String) : SigExpr
  | opNode (operation : ASTOperation) (parameters : List SigExpr) : SigExpr

/-- Embeds `SignalAST.__init__` from `node.py` lines 24-26: it stores the operation
and the parameter list and performs no validation of any kind. -/
def SignalAST.init (operation : ASTOperation) (parameters : List SigExpr) :
    SigExpr :=
  SigExpr.opNode operation parameters

/-- The constructor helper `Not(n)` of `node.py`. -/
def NotC (n : SigExpr) : SigExpr := SignalAST.init ASTOperation.NOT [n]

/-- The constructor helper `And(*args)` of `node.py`. -/
def AndC (args : List SigExpr) : SigExpr := SignalAST.init ASTOperation.AND args

/-- The constructor helper `Or(*args)` of `node.py`. -/
def OrC (args : List SigExpr) : SigExpr := SignalAST.init ASTOperation.OR args

/-- The constructor helper `XOr(*args)` of `node.py`. -/
def XOrC (args : List SigExpr) : SigExpr := SignalAST.init ASTOperation.XOR args

/-- Python `functools.reduce f` over a list of booleans: raises `TypeError`
on the empty list (modelled as `none`), otherwise left-folds from the first
element. -/
def pyReduce (f : Bool → Bool → Bool) : List Bool → Option Bool
  | [] => none
  | b :: bs => some (bs.foldl f b)

/-- The operator dispatch inside `SignalAST.evaluate` (lines 40-50 of
`node.py`), applied to the already-evaluated parameter values: NOT asserts
arity 1 (a failed assertion is `none`), AND is `all`, OR is `any`, and XOR
is `reduce(lambda x, y: x ^ x, ...)` exactly as written in the source. -/
def applyOp (op : ASTOperation) (vals : List Bool) : Option Bool :=
  match op with
  | ASTOperation.NOT =>
      match vals with
      | [v] => some (!v)
      | _ => none
  | ASTOperation.AND => some (vals.all id)
  | ASTOperation.OR => some (vals.any id)
  | ASTOperation.XOR => pyReduce (fun x _ => xor x x) vals

/-- A received-signal map: node name to the latest message from that node. -/
abbrev Received := String → Option Message

/-- Evaluation of a leaf parameter in `SignalAST.evaluate` (line 37 of
`node.py`): true iff the referenced node has sent a message and its status
is SUCCESS. -/
def leafValue (received : Received) (name : String) : Bool :=
  match received name with
  | some m => decide (m.status = some Status.SUCCESS)
  | none => false

mutual

/-- Embeds `SignalAST.evaluate` from `node.py` lines 28-50, against a received map:
parameters are evaluated left to right (leaves by `leafValue`, sub-trees
recursively) and the operator is applied; `none` models a raised exception. -/
def evalExpr (received : Received) : SigExpr → Option Bool
  | SigExpr.nodeRef name => some (leafValue received name)
  | SigExpr.opNode op ps =>
      match evalParams received ps with
      | some vals => applyOp op vals
      | none => none

/-- The parameter-evaluation loop of `SignalAST.evaluate` (lines 32-38 of
`node.py`): left-to-right, propagating a raised exception. -/
def evalParams (received : Received) : List SigExpr → Option (List Bool)
  | [] => some []
  | e :: es =>
      match evalExpr received e, evalParams received es with
      | some v, some vs => some (v :: vs)
      | _, _ => none

end

mutual

/-- Embeds `SignalAST._nodes` from `node.py` lines 58-67: the node names reachable
at the leaves of the tree, in left-to-right order. -/
def nodesOf : SigExpr → List String
  | SigExpr.nodeRef name => [name]
  | SigExpr.opNode _ ps => nodesOfList ps

/-- Helper for `nodesOf` over a parameter list. -/
def nodesOfList : List SigExpr → List String
  | [] => []
  | e :: es => nodesOf e ++ nodesOfList es

end

/-- The spec §3 arity invariant on one operator node: NOT has arity 1,
AND/OR/XOR have arity at least 1. -/
def arityOk (op : ASTOperation) (n : Nat) : Bool :=
  match op with
  | ASTOperation.NOT => decide (n = 1)
  | _ => decide (1 ≤ n)

mutual

/-- A tree is well formed when every operator node satisfies the spec §3
arity invariant. -/
def wellFormed : SigExpr → Bool
  | SigExpr.nodeRef _ => true
  | SigExpr.opNode op ps => arityOk op ps.length && wellFormedList ps

/-- Helper for `wellFormed` over a parameter list. -/
def wellFormedList : List SigExpr → Bool
  | [] => true
  | e :: es => wellFormed e && wellFormedList es

end

/-- The node state read and written by `BaseNode.check_signals` in
`node.py`: the set of dependent (predecessor) nodes as their names, the FIFO
inbox `incoming_signals` in arrival order, the `received_signals` map, and
the gate `signal_ast`. -/
structure NodeState where
  dependent_nodes : List String
  incoming_signals : List Message
  received_signals : Received
  signal_ast : SigExpr

/-- The drain loop of `check_signals` (lines 235-237 of `node.py`): dequeue
every queued message in FIFO order and store it under its sender, so the map
keeps only the most recent message per sender. -/
def pyDrain (queue : List Message) (received : Received) : Received :=
  queue.foldl (fun acc m => Function.update acc m.sender (some m)) received

/-- Embeds `BaseNode.check_signals` from `node.py` lines 222-245: with no dependent
nodes it returns true; with dependent nodes and an empty inbox it returns
false at once; otherwise it drains the inbox into `received_signals` and
returns the gate evaluation. `none` models an exception raised by
evaluation escaping the method. -/
def check_signals (st : NodeState) : Option (Bool × NodeState) :=
  if st.dependent_nodes.length > 0 then
    if st.incoming_signals.isEmpty then
      some (false, st)
    else
      let received := pyDrain st.incoming_signals st.received_signals
      let st2 : NodeState :=
        { st with incoming_signals := [], received_signals := received }
      match evalExpr received st.signal_ast with
      | some b => some (b, st2)
      | none => none
  else
    some (true, st)

/-- Python exceptions are modelled by their message. -/
abbrev Exc := String

/-- The observable events of one pass through the `BaseNode.run` loop. -/
inductive Ev where
  | setStatus (s : Status)
  | preExec
  | exec
  | onSuccess
  | onFailure (e : Option Exc)
  | postExec
  | send (outcome : Status)
  deriving DecidableEq, Repr

/-- The behavior of the user hooks during one pass of the execute phase:
each field is the outcome (normal return or raised exception) of invoking
that hook; `post_execution` is indexed by how many times it has already been
invoked in this pass, since the handler may call it a second time. -/
structure ExecHooks where
  pre_execution : Except Exc Unit
  execute : Except Exc Bool
  on_success : Except Exc Unit
  on_failure : Option Exc → Except Exc Unit
  post_execution : Nat → Except Exc Unit
  sendSuccess : Except Exc Unit
  sendFailure : Except Exc Unit

/-- Record the invocation of a hook and either propagate its exception or
continue with the rest of the phase. -/
def bindHook {α : Type} (ev : Ev) (r : Except Exc α)
    (k : α → List Ev × Except Exc Unit) : List Ev × Except Exc Unit :=
  match r with
  | Except.error e => ([ev], Except.error e)
  | Except.ok a =>
      let p := k a
      (ev :: p.1, p.2)

/-- The `try` body of the execute phase, `node.py` lines 366-375: run
`execute()`; on true run `on_success`, `post_execution`, emit SUCCESS; on
false run `on_failure(None)`, `post_execution`, emit FAILURE. -/
def tryBody (h : ExecHooks) : List Ev × Except Exc Unit :=
  bindHook Ev.exec h.execute fun ret =>
    if ret then
      bindHook Ev.onSuccess h.on_success fun _ =>
        bindHook Ev.postExec (h.post_execution 0) fun _ =>
          bindHook (Ev.send Status.SUCCESS) h.sendSuccess fun _ =>
            ([], Except.ok ())
    else
      bindHook (Ev.onFailure none) (h.on_failure none) fun _ =>
        bindHook Ev.postExec (h.post_execution 0) fun _ =>
          bindHook (Ev.send Status.FAILURE) h.sendFailure fun _ =>
            ([], Except.ok ())

/-- The `except` handler of the execute phase, `node.py` lines 376-379: run
`on_failure(e)`, `post_execution`, emit FAILURE. An exception raised by a
handler hook propagates out of `run` and kills the worker. -/
def handler (h : ExecHooks) (e : Exc) (postCalls : Nat) :
    List Ev × Except Exc Unit :=
  bindHook (Ev.onFailure (some e)) (h.on_failure (some e)) fun _ =>
    bindHook Ev.postExec (h.post_execution postCalls) fun _ =>
      bindHook (Ev.send Status.FAILURE) h.sendFailure fun _ =>
        ([], Except.ok ())

/-- The execute phase of `BaseNode.run`, `node.py` lines 363-379:
`pre_execution()` (outside the try), then the try body; if the try body
raised, the handler runs. The result is the event trace plus `ok` when the
loop iteration completes normally (the worker continues) or `error` when an
unhandled exception escapes `run` (the worker terminates). -/
def execPhase (h : ExecHooks) : List Ev × Except Exc Unit :=
  bindHook Ev.preExec h.pre_execution fun _ =>
    let tb := tryBody h
    match tb.2 with
    | Except.ok _ => tb
    | Except.error e =>
        let hd := handler h e (tb.1.count Ev.postExec)
        (tb.1 ++ hd.1, hd.2)

/-- The start of `BaseNode.run`, `node.py` lines 332-341: status is set to
INIT, `setup()` runs; if it raises, status is set to ERROR and `run`
returns — the main loop below it (whose trace is the `loopTrace` argument)
is never entered; otherwise status becomes RUNNING and the loop follows. -/
def runTrace (setup : Except Exc Unit) (loopTrace : List Ev) : List Ev :=
  match setup with
  | Except.error _ => [Ev.setStatus Status.INIT, Ev.setStatus Status.ERROR]
  | Except.ok _ =>
      [Ev.setStatus Status.INIT, Ev.setStatus Status.RUNNING] ++ loopTrace

/-- A node as `Pipeline.__init__` sees it: an identity plus the declared
predecessor identities. -/
structure PNode where
  id : Nat
  predecessors : List Nat

/-- The directed graph built by `Pipeline.__init__` (`pipeline.py` lines
35-44). -/
structure Digraph where
  verts : List Nat
  edges : List (Nat × Nat)

/-- Embeds `Pipeline.__init__` lines 35-44 of `pipeline.py`: every input node is a
vertex, and for each input node there is an edge from each of its declared
predecessors to it (`add_edge` also inserts the predecessor as a vertex). -/
def buildGraph (ns : List PNode) : Digraph :=
  { verts := ns.map (fun n => n.id) ++ ns.flatMap (fun n => n.predecessors)
    edges := ns.flatMap (fun n => n.predecessors.map (fun p => (p, n.id))) }

/-- A vertex of `remaining` with no incoming edge from `remaining`, if one
exists: the elimination step of a topological sort. -/
def pickSource (g : Digraph) (remaining : List Nat) : Option Nat :=
  remaining.find? (fun v =>
    !(remaining.any (fun u => decide ((u, v) ∈ g.edges))))

/-- Kahn-style elimination: repeatedly remove a source vertex; succeeds with
a topological order exactly when the whole graph can be eliminated. This
embeds the `networkx` acyclicity test and topological sort used by
`Pipeline.__init__` (`pipeline.py` lines 56-59). -/
def kahn (g : Digraph) : Nat → List Nat → Option (List Nat)
  | 0, remaining => if remaining.isEmpty then some [] else none
  | fuel + 1, remaining =>
      if remaining.isEmpty then some []
      else
        match pickSource g remaining with
        | none => none
        | some v => (kahn g fuel (remaining.erase v)).map (fun l => v :: l)

/-- Embeds `nx.is_directed_acyclic_graph` as used on line 56 of `pipeline.py`. -/
def isDAG (g : Digraph) : Bool :=
  (kahn g g.verts.length g.verts).isSome

/-- The message carried by `InvalidNodeDependencyError` in `pipeline.py`. -/
def invalidNodeDependencyMsg : String :=
  "Node Dependencies do not form a Directed Acyclic Graph"

/-- The constructed pipeline: the nodes in topological order (`pipeline.py`
line 59). -/
structure Pipeline where
  nodes : List Nat

/-- Embeds `Pipeline.__init__`, `pipeline.py` lines 34-59: build the graph, and if
it is not a DAG raise `InvalidNodeDependencyError` (modelled as
`Except.error`, which propagates to the caller); otherwise store the
topological order. -/
def Pipeline.init (ns : List PNode) : Except String Pipeline :=
  let g := buildGraph ns
  if isDAG g then
    Except.ok { nodes := (kahn g g.verts.length g.verts).getD [] }
  else
    Except.error invalidNodeDependencyMsg

/-- A nonempty cycle in a digraph: a start vertex `v`, a chain of edges
through `rest`, and a closing edge from the last vertex back to `v`. -/
def HasCycleOn (g : Digraph) (v : Nat) (rest : List Nat) : Prop :=
  List.Chain (fun a b => (a, b) ∈ g.edges) v rest ∧
    ((v :: rest).getLast (List.cons_ne_nil v rest), v) ∈ g.edges

/-- The observable events of `Pipeline.terminate_nodes`. -/
inductive TermEv where
  | signalStopping (n : Nat)
  | joined (n : Nat)
  deriving DecidableEq, Repr

/-- Modelled from the spec: `BaseNode.exit`, called by `terminate_nodes`, is
defined in `engine/base.py` which is absent from the sources; per spec §4.5
terminate "signals STOPPING" to the node, matching `BaseNode.stop` in
`node.py` (lines 317-318), which sets status to STOPPING. -/
def nodeExit (n : Nat) : TermEv := TermEv.signalStopping n

/-- Embeds `Pipeline.terminate_nodes`, `pipeline.py` lines 69-80: walk the
topological order in reverse; for each node, signal it to stop and then join
it before moving on. -/
def terminate_nodes (topo : List Nat) : List TermEv :=
  topo.reverse.flatMap (fun n => [nodeExit n, TermEv.joined n])

/-- The observable events of `ResourceNode.await_references`. -/
inductive RefEv where
  | waitDrained
  | callFunc
  | clearDrained
  deriving DecidableEq, Repr

/-- Embeds `ResourceNode.await_references`, `node.py` lines 450-461: wait on the
drained event, run the wrapped method, and afterwards clear the event if it
is still set. `isSet0` is whether the event is set on entry and
`externalSet` whether a reader sets it while the writer waits; when neither
holds the wait blocks forever (`none`). Readers only ever set the event, so
after the wait returns it stays set through the call; the result carries the
trace and the final event state. -/
def awaitRefs (isSet0 externalSet : Bool) : Option (List RefEv × Bool) :=
  if isSet0 || externalSet then
    let setAfterFunc := true
    if setAfterFunc then
      some ([RefEv.waitDrained, RefEv.callFunc, RefEv.clearDrained], false)
    else
      some ([RefEv.waitDrained, RefEv.callFunc], true)
  else
    none

/-- The observable events of one iteration of `AndAndNode.run`. -/
inductive BarEv where
  | pollPreds (ok : Bool)
  | emitSuccessors
  | pollSuccs (ok : Bool)
  | emitPredecessors
  deriving DecidableEq, Repr

/-- A polling loop (`while check(...) is False: sleep`), recording every
poll: `ready k` is the check result at the k-th poll. Returns the trace of
polls ending in the first successful one, or `none` when the fuel runs out
before the check succeeds. -/
def spinPolls (ready : Nat → Bool) (mk : Bool → BarEv) :
    Nat → Nat → Option (List BarEv)
  | 0, _ => none
  | fuel + 1, k =>
      if ready k then some [mk true]
      else (spinPolls ready mk fuel (k + 1)).map (fun t => mk false :: t)

/-- One iteration of `AndAndNode.run`, `logic.py` lines 27-40. Modelled from
the spec for the parts living in the absent `engine/base.py`:
`check_predecessors_signals` returns whether every predecessor has signaled
SUCCESS (oracle `predReady` at the k-th poll), `check_successors_signals`
whether every successor has signaled SUCCESS back (oracle `succReady`), and
`signal_successors` / `signal_predecessors` emit SUCCESS to every successor /
predecessor. The iteration spins on the predecessor check, emits to
successors, spins on the successor check, and emits back to predecessors. -/
def andAndIteration (predReady succReady : Nat → Bool) (fuel : Nat) :
    Option (List BarEv) :=
  match spinPolls predReady BarEv.pollPreds fuel 0 with
  | none => none
  | some pt =>
      match spinPolls succReady BarEv.pollSuccs fuel 0 with
      | none => none
      | some st =>
          some (pt ++ [BarEv.emitSuccessors] ++ st ++ [BarEv.emitPredecessors])

/-! ### Concrete inputs used by counterexamples and witnesses -/

/-- A received map in which node `a` has reported SUCCESS and nobody else
has reported. -/
def rcvOnlyA : Received := fun s =>
  if s = "a" then
    some { sender := "a", signal_type := "DEFAULT_SIGNAL", timestamp := 0,
           status := some Status.SUCCESS }
  else none

/-- The gate `XOr(a, b)` built by the source constructor. -/
def xorAB : SigExpr := XOrC [SigExpr.nodeRef "a", SigExpr.nodeRef "b"]

/-! ### Claim theorems -/

/-- C1: the claim states that a XOR root evaluates to the parity of its
children. On the embedded code it does not: with children `a, b` and only
`a` succeeded, the child values are `[true, false]`, an odd number of which
are true (parity says `true`), yet `evaluate` — whose XOR branch reduces
with `lambda x, y: x ^ x`, ignoring the right operand — returns `false`.
The spec itself flags the source expression as a bug, so the code, not the
claim, is wrong. -/
theorem xor_evaluator_defeats_parity :
    evalParams rcvOnlyA [SigExpr.nodeRef "a", SigExpr.nodeRef "b"]
        = some [true, false]
    ∧ [true, false].count true % 2 = 1
    ∧ evalExpr rcvOnlyA xorAB = some false := by
  refine ⟨?_, ?_, ?_⟩ <;>
    simp [evalParams, evalExpr, leafValue, rcvOnlyA, xorAB, XOrC,
      SignalAST.init, applyOp, pyReduce]

/-- The node state of a node built with `listen_to = [Not(a)]`: dependent
node `a`, empty inbox, nothing received, gate `And(Not(a))`. -/
def notGateState : NodeState :=
  { dependent_nodes := ["a"]
    incoming_signals := []
    received_signals := fun _ => none
    signal_ast := AndC [NotC (SigExpr.nodeRef "a")] }

/-- C2 counterexample: the claim says that with a non-empty predecessor set
the gate check returns the gate evaluation, yielding false only when the
gate evaluates false. On the embedded code, a node listening to `Not(a)`
with an empty inbox gets `false` from `check_signals` even though its gate
evaluates `true` over its received map: the empty-inbox branch returns
false without consulting the gate. -/
theorem check_signals_false_despite_true_gate :
    check_signals notGateState = some (false, notGateState)
    ∧ evalExpr notGateState.received_signals notGateState.signal_ast
        = some true := by
  constructor
  · simp [check_signals, notGateState]
  · simp [notGateState, evalExpr, evalParams, leafValue, AndC, NotC,
      SignalAST.init, applyOp]

/-- C3 counterexample: the claim says a tree with XOR arity 0 is rejected
with a configuration error at construction time, not at evaluation time. On
the embedded code, the source constructor `XOr()` called with no arguments
succeeds and returns the tree — `SignalAST.__init__` performs no arity
validation — and the violation instead surfaces at evaluation time, where
`reduce` over the empty child list raises (modelled as `none`). -/
theorem xor_empty_passes_construction_fails_evaluation :
    XOrC [] = SigExpr.opNode ASTOperation.XOR []
    ∧ evalExpr (fun _ => none) (XOrC []) = none := by
  constructor
  · rfl
  · simp [XOrC, SignalAST.init, evalExpr, evalParams, applyOp, pyReduce]

/-- C2, amended: with an empty predecessor set the gate check always
returns true; with a non-empty predecessor set and an empty inbox it
returns false without draining or evaluating the gate; only with a
non-empty predecessor set and a non-empty inbox does it drain the inbox
into the received map and return the gate evaluation over that map. -/
theorem check_signals_gate_behavior (st : NodeState) :
    (st.dependent_nodes = [] → check_signals st = some (true, st))
    ∧ (st.dependent_nodes ≠ [] → st.incoming_signals = [] →
        check_signals st = some (false, st))
    ∧ (st.dependent_nodes ≠ [] → st.incoming_signals ≠ [] →
        ∀ b st2, check_signals st = some (b, st2) →
          st2.received_signals = pyDrain st.incoming_signals st.received_signals
          ∧ st2.incoming_signals = []
          ∧ evalExpr st2.received_signals st.signal_ast = some b) := by
  refine ⟨?_, ?_, ?_⟩
  · intro h
    simp [check_signals, h]
  · intro h1 h2
    simp [check_signals, h2, List.length_pos, h1]
  · intro h1 h2 b st2 hcs
    have hne : st.dependent_nodes.length > 0 := List.length_pos.mpr h1
    have hine : st.incoming_signals.isEmpty = false := by
      simpa [List.isEmpty_iff] using h2
    simp only [check_signals, hne, if_true, hine, Bool.false_eq_true,
      if_false] at hcs
    cases hev : evalExpr (pyDrain st.incoming_signals st.received_signals)
        st.signal_ast with
    | none => simp [hev] at hcs
    | some v =>
        simp only [hev] at hcs
        obtain ⟨hb, hst⟩ := Prod.mk.injEq .. ▸ Option.some.injEq .. ▸ hcs
        subst hst
        simp_all

/-- A concrete state for the C2 witness: one dependent node `a`, one queued
SUCCESS message from `a`, gate `And(a)`. -/
def drainDemoState : NodeState :=
  { dependent_nodes := ["a"]
    incoming_signals := [{ sender := "a", signal_type := "DEFAULT_SIGNAL",
                           timestamp := 0, status := some Status.SUCCESS }]
    received_signals := fun _ => none
    signal_ast := AndC [SigExpr.nodeRef "a"] }

/-- The state `drainDemoState` reaches after its inbox has been drained. -/
def drainedDemoState : NodeState :=
  { drainDemoState with
    incoming_signals := []
    received_signals :=
      pyDrain drainDemoState.incoming_signals
        drainDemoState.received_signals }

/-- Witness for `check_signals_gate_behavior` at `drainDemoState`. -/
theorem check_signals_gate_behavior_witness :
    drainedDemoState.received_signals
        = pyDrain drainDemoState.incoming_signals
            drainDemoState.received_signals
    ∧ drainedDemoState.incoming_signals = []
    ∧ evalExpr drainedDemoState.received_signals drainDemoState.signal_ast
        = some true :=
  (check_signals_gate_behavior drainDemoState).2.2
    (by simp [drainDemoState]) (by simp [drainDemoState]) true
    drainedDemoState
    (by simp [check_signals, drainDemoState, drainedDemoState, pyDrain,
      evalExpr, evalParams, leafValue, applyOp, AndC, SignalAST.init,
      Function.update])

/-- Helper: the operator dispatch succeeds whenever the spec arity invariant
holds for the value list. -/
theorem applyOp_total (op : ASTOperation) (vals : List Bool)
    (h : arityOk op vals.length = true) : (applyOp op vals).isSome = true := by
  cases op with
  | NOT =>
      simp only [arityOk, decide_eq_true_eq] at h
      cases vals with
      | nil => simp at h
      | cons v vs =>
          cases vs with
          | nil => simp [applyOp]
          | cons w ws => simp at h
  | AND => simp [applyOp]
  | OR => simp [applyOp]
  | XOR =>
      cases vals with
      | nil => simp [arityOk] at h
      | cons v vs => simp [applyOp, pyReduce]

mutual

/-- Helper: a well-formed expression always evaluates to `some`. -/
theorem evalExpr_total (received : Received) :
    ∀ e : SigExpr, wellFormed e = true → (evalExpr received e).isSome = true
  | SigExpr.nodeRef _, _ => by simp [evalExpr]
  | SigExpr.opNode op ps, h => by
      rw [wellFormed] at h
      simp only [Bool.and_eq_true] at h
      obtain ⟨h1, h2⟩ := h
      obtain ⟨vals, hv, hlen⟩ := evalParams_total received ps h2
      rw [evalExpr, hv]
      exact applyOp_total op vals (hlen ▸ h1)

/-- Helper: a list of well-formed expressions evaluates to a list of values
of the same length. -/
theorem evalParams_total (received : Received) :
    ∀ ps : List SigExpr, wellFormedList ps = true →
      ∃ vals, evalParams received ps = some vals ∧ vals.length = ps.length
  | [], _ => ⟨[], rfl, rfl⟩
  | e :: es, h => by
      rw [wellFormedList] at h
      simp only [Bool.and_eq_true] at h
      obtain ⟨h1, h2⟩ := h
      have he := evalExpr_total received e h1
      obtain ⟨v, hv⟩ := Option.isSome_iff_exists.mp he
      obtain ⟨vs, hvs, hlen⟩ := evalParams_total received es h2
      exact ⟨v :: vs, by rw [evalParams, hv, hvs], by simp [hlen]⟩

end

/-- C3, amended: evaluation never fails on a well-formed tree (NOT arity 1,
AND/OR/XOR arity at least 1); however wrong-arity trees are not rejected at
construction — `SignalAST.__init__` performs no validation, and the arity
violation surfaces as a failure at evaluation time instead. -/
theorem wellformed_eval_never_fails (received : Received) (e : SigExpr)
    (h : wellFormed e = true) : (evalExpr received e).isSome = true :=
  evalExpr_total received e h

/-- Witness for `wellformed_eval_never_fails` at the gate `XOr(a, b)`. -/
theorem wellformed_eval_never_fails_witness :
    wellFormed xorAB = true ∧ (evalExpr rcvOnlyA xorAB).isSome = true := by
  have hwf : wellFormed xorAB = true := by
    simp [xorAB, XOrC, SignalAST.init, wellFormed, wellFormedList, arityOk]
  exact ⟨hwf, wellformed_eval_never_fails rcvOnlyA xorAB hwf⟩

/-- C4: when `execute()` raises and the failure-path hooks return normally,
the worker invokes `on_failure` with that exception, then `post_execution`,
then emits FAILURE to all successors, and the iteration completes normally,
so the worker loop continues rather than terminating. -/
theorem execute_raise_contained (h : ExecHooks) (e : Exc)
    (hpre : h.pre_execution = Except.ok ())
    (hex : h.execute = Except.error e)
    (hof : h.on_failure (some e) = Except.ok ())
    (hpost : h.post_execution 0 = Except.ok ())
    (hsf : h.sendFailure = Except.ok ()) :
    execPhase h
      = ([Ev.preExec, Ev.exec, Ev.onFailure (some e), Ev.postExec,
          Ev.send Status.FAILURE], Except.ok ()) := by
  simp [execPhase, tryBody, handler, bindHook, hpre, hex, hof, hpost, hsf]

/-- Hooks for the C4 witness: `execute` raises, everything else returns. -/
def raisingExecHooks : ExecHooks :=
  { pre_execution := Except.ok ()
    execute := Except.error "boom"
    on_success := Except.ok ()
    on_failure := fun _ => Except.ok ()
    post_execution := fun _ => Except.ok ()
    sendSuccess := Except.ok ()
    sendFailure := Except.ok () }

/-- Witness for `execute_raise_contained` at `raisingExecHooks`. -/
theorem execute_raise_contained_witness :
    execPhase raisingExecHooks
      = ([Ev.preExec, Ev.exec, Ev.onFailure (some "boom"), Ev.postExec,
          Ev.send Status.FAILURE], Except.ok ()) :=
  execute_raise_contained raisingExecHooks "boom" rfl rfl rfl rfl rfl

/-- C10: when `execute()` returns true but `on_success`, `post_execution`
or the SUCCESS emission raises, and the failure path returns normally, the
handler invokes `on_failure` with that exception and emits FAILURE to all
successors — so within the same cycle `on_success` was invoked, `on_failure`
was invoked, and successors receive FAILURE although `execute` returned
true; the worker continues. -/
theorem success_path_raise_sends_failure (h : ExecHooks) (e : Exc)
    (hpre : h.pre_execution = Except.ok ())
    (hex : h.execute = Except.ok true)
    (hof : h.on_failure (some e) = Except.ok ())
    (hsf : h.sendFailure = Except.ok ())
    (hcase :
      (h.on_success = Except.error e ∧ h.post_execution 0 = Except.ok ())
      ∨ (h.on_success = Except.ok () ∧ h.post_execution 0 = Except.error e
          ∧ h.post_execution 1 = Except.ok ())
      ∨ (h.on_success = Except.ok () ∧ h.post_execution 0 = Except.ok ()
          ∧ h.sendSuccess = Except.error e
          ∧ h.post_execution 1 = Except.ok ())) :
    (execPhase h).2 = Except.ok ()
    ∧ Ev.onSuccess ∈ (execPhase h).1
    ∧ Ev.onFailure (some e) ∈ (execPhase h).1
    ∧ Ev.send Status.FAILURE ∈ (execPhase h).1 := by
  rcases hcase with ⟨h1, h2⟩ | ⟨h1, h2, h3⟩ | ⟨h1, h2, h3, h4⟩ <;>
    simp [execPhase, tryBody, handler, bindHook, hpre, hex, hof, hsf,
      h1, h2, *]

/-- Hooks for the C10 witness: `execute` returns true, `on_success` raises,
everything else returns. -/
def successRaiseHooks : ExecHooks :=
  { pre_execution := Except.ok ()
    execute := Except.ok true
    on_success := Except.error "boom"
    on_failure := fun _ => Except.ok ()
    post_execution := fun _ => Except.ok ()
    sendSuccess := Except.ok ()
    sendFailure := Except.ok () }

/-- Witness for `success_path_raise_sends_failure` at `successRaiseHooks`. -/
theorem success_path_raise_sends_failure_witness :
    (execPhase successRaiseHooks).2 = Except.ok ()
    ∧ Ev.onSuccess ∈ (execPhase successRaiseHooks).1
    ∧ Ev.onFailure (some "boom") ∈ (execPhase successRaiseHooks).1
    ∧ Ev.send Status.FAILURE ∈ (execPhase successRaiseHooks).1 :=
  success_path_raise_sends_failure successRaiseHooks "boom" rfl rfl rfl rfl
    (Or.inl ⟨rfl, rfl⟩)

/-- C6: when `setup()` raises, the node sets status INIT and then the
terminal ERROR status and `run` returns — the main loop is never entered,
so no message of any outcome is ever emitted to any successor. -/
theorem setup_raise_goes_to_error : ∀ (e : Exc) (loopTrace : List Ev),
    runTrace (Except.error e) loopTrace
      = [Ev.setStatus Status.INIT, Ev.setStatus Status.ERROR]
    ∧ ∀ o : Status, Ev.send o ∉ runTrace (Except.error e) loopTrace := by
  intro e loopTrace
  refine ⟨rfl, ?_⟩
  intro o
  simp [runTrace]

/-- C7 counterexample: the claim says the await-drained guard clears the
drained condition before running the underlying mutating method. On the
embedded code, the completed guard trace (entered with the event set) runs
the method first: the clear comes after the call, so the position of the
clear is not before the position of the call. -/
theorem await_clears_after_method :
    awaitRefs true false
      = some ([RefEv.waitDrained, RefEv.callFunc, RefEv.clearDrained], false)
    ∧ ¬ ([RefEv.waitDrained, RefEv.callFunc, RefEv.clearDrained].indexOf
            RefEv.clearDrained
          < [RefEv.waitDrained, RefEv.callFunc, RefEv.clearDrained].indexOf
            RefEv.callFunc) := by
  exact ⟨rfl, by decide⟩

/-- C7, amended: the guard blocks until the drained condition is signaled
(it completes only when the event was or becomes set), then runs the
underlying mutating method, and only after the method returns does it clear
the drained condition, leaving the event cleared. -/
theorem await_references_order (b1 b2 : Bool) (t : List RefEv) (s : Bool)
    (h : awaitRefs b1 b2 = some (t, s)) :
    t.head? = some RefEv.waitDrained
    ∧ t.indexOf RefEv.callFunc < t.indexOf RefEv.clearDrained
    ∧ s = false
    ∧ (b1 || b2) = true := by
  by_cases hb : (b1 || b2) = true
  · rw [awaitRefs, if_pos hb] at h
    simp only [if_pos rfl] at h
    obtain ⟨ht, hs⟩ := Prod.mk.injEq .. ▸ Option.some.injEq .. ▸ h
    subst ht
    subst hs
    refine ⟨rfl, by decide, rfl, hb⟩
  · rw [awaitRefs, if_neg hb] at h
    exact absurd h (by simp)

/-- Witness for `await_references_order` with the event set on entry. -/
theorem await_references_order_witness :
    ([RefEv.waitDrained, RefEv.callFunc, RefEv.clearDrained] :
        List RefEv).head? = some RefEv.waitDrained
    ∧ ([RefEv.waitDrained, RefEv.callFunc,
        RefEv.clearDrained] : List RefEv).indexOf RefEv.callFunc
        < ([RefEv.waitDrained, RefEv.callFunc,
            RefEv.clearDrained] : List RefEv).indexOf RefEv.clearDrained
    ∧ false = false
    ∧ (true || false) = true :=
  await_references_order true false
    [RefEv.waitDrained, RefEv.callFunc, RefEv.clearDrained] false rfl

/-- The node identity a terminate event concerns, when the event is the
STOPPING signal. -/
def sigOf : TermEv → Option Nat
  | TermEv.signalStopping n => some n
  | TermEv.joined _ => none

/-- Helper: the stop signals of a terminate trace, in order, are exactly
the traversal order of the node list. -/
theorem filterMap_sigOf (l : List Nat) :
    (l.flatMap (fun n => [nodeExit n, TermEv.joined n])).filterMap sigOf
      = l := by
  induction l with
  | nil => rfl
  | cons a l ih =>
      simp only [nodeExit] at ih ⊢
      simp [List.flatMap_cons, List.filterMap_append, sigOf, ih]

/-- C8: terminate signals STOPPING in reverse topological order, and joins
each node before touching nodes earlier in the topological order: whenever
`ni` precedes `nj` in the topological order, the trace stops and joins `nj`
strictly before it signals `ni`; and the sequence of stop signals is
exactly the reversed topological order. -/
theorem terminate_reverse_topological (topo l1 l2 l3 : List Nat)
    (ni nj : Nat) (h : topo = l1 ++ ni :: l2 ++ nj :: l3) :
    (terminate_nodes topo).filterMap sigOf = topo.reverse
    ∧ ∃ t1 t2 t3, terminate_nodes topo
        = t1 ++ [TermEv.signalStopping nj, TermEv.joined nj]
          ++ t2 ++ [TermEv.signalStopping ni, TermEv.joined ni] ++ t3 := by
  constructor
  · exact filterMap_sigOf topo.reverse
  · subst h
    refine ⟨(l3.reverse).flatMap (fun n => [nodeExit n, TermEv.joined n]),
      (l2.reverse).flatMap (fun n => [nodeExit n, TermEv.joined n]),
      (l1.reverse).flatMap (fun n => [nodeExit n, TermEv.joined n]), ?_⟩
    simp [terminate_nodes, List.reverse_append, List.flatMap_append,
      nodeExit, List.append_assoc]

/-- Witness for `terminate_reverse_topological` on the chain 0 → 1 → 2. -/
theorem terminate_reverse_topological_witness :
    (terminate_nodes [0, 1, 2]).filterMap sigOf = ([0, 1, 2] : List Nat).reverse
    ∧ ∃ t1 t2 t3, terminate_nodes [0, 1, 2]
        = t1 ++ [TermEv.signalStopping 2, TermEv.joined 2]
          ++ t2 ++ [TermEv.signalStopping 0, TermEv.joined 0] ++ t3 :=
  terminate_reverse_topological [0, 1, 2] [] [1] [] 0 2 rfl

/-- Helper: a completed polling loop consists of some failed polls followed
by the first successful poll, and the check was false at every earlier
poll. -/
theorem spinPolls_spec (ready : Nat → Bool) (mk : Bool → BarEv) :
    ∀ fuel k t, spinPolls ready mk fuel k = some t →
      ∃ a, t = List.replicate a (mk false) ++ [mk true]
        ∧ ready (k + a) = true ∧ ∀ m, m < a → ready (k + m) = false := by
  intro fuel
  induction fuel with
  | zero =>
      intro k t h
      simp [spinPolls] at h
  | succ n ih =>
      intro k t h
      rw [spinPolls] at h
      by_cases hr : ready k = true
      · rw [if_pos hr] at h
        obtain rfl : [mk true] = t := Option.some.injEq .. ▸ h
        refine ⟨0, by simp, by simpa using hr, ?_⟩
        intro m hm
        omega
      · rw [if_neg hr] at h
        cases hs : spinPolls ready mk n (k + 1) with
        | none =>
            rw [hs] at h
            simp at h
        | some t0 =>
            rw [hs] at h
            obtain rfl : mk false :: t0 = t := by simpa using h
            obtain ⟨a, ht0, hready, hbefore⟩ := ih (k + 1) t0 hs
            refine ⟨a + 1, ?_, ?_, ?_⟩
            · rw [ht0]
              simp [List.replicate_succ]
            · have : k + 1 + a = k + (a + 1) := by omega
              rw [← this]
              exact hready
            · intro m hm
              cases m with
              | zero =>
                  simpa using Bool.eq_false_iff.mpr (fun hc => hr hc)
              | succ m0 =>
                  have hstep := hbefore m0 (by omega)
                  have : k + 1 + m0 = k + (m0 + 1) := by omega
                  rw [← this]
                  exact hstep

/-- C9: whenever an iteration of the AndAnd barrier loop completes, its
trace is exactly the four phases in order: failed predecessor polls up to
the first poll at which every predecessor has signaled SUCCESS, then the
emission of SUCCESS to every successor, then failed successor polls up to
the first poll at which every successor has signaled SUCCESS back, then the
emission of SUCCESS back to every predecessor. In particular nothing is
emitted to successors before the all-predecessors check succeeds, and
nothing is emitted back to predecessors before the all-successors check
succeeds. -/
theorem andand_two_phase_rendezvous (predReady succReady : Nat → Bool)
    (fuel : Nat) (t : List BarEv)
    (h : andAndIteration predReady succReady fuel = some t) :
    ∃ a b, t = List.replicate a (BarEv.pollPreds false)
          ++ [BarEv.pollPreds true, BarEv.emitSuccessors]
          ++ List.replicate b (BarEv.pollSuccs false)
          ++ [BarEv.pollSuccs true, BarEv.emitPredecessors]
      ∧ predReady a = true ∧ (∀ m, m < a → predReady m = false)
      ∧ succReady b = true ∧ (∀ m, m < b → succReady m = false) := by
  rw [andAndIteration] at h
  cases hp : spinPolls predReady BarEv.pollPreds fuel 0 with
  | none =>
      rw [hp] at h
      simp at h
  | some pt =>
      rw [hp] at h
      cases hq : spinPolls succReady BarEv.pollSuccs fuel 0 with
      | none =>
          rw [hq] at h
          simp at h
      | some st =>
          rw [hq] at h
          obtain rfl : pt ++ [BarEv.emitSuccessors] ++ st
              ++ [BarEv.emitPredecessors] = t := by simpa using h
          obtain ⟨a, hpt, hpa, hpb⟩ :=
            spinPolls_spec predReady BarEv.pollPreds fuel 0 pt hp
          obtain ⟨b, hst, hsa, hsb⟩ :=
            spinPolls_spec succReady BarEv.pollSuccs fuel 0 st hq
          refine ⟨a, b, ?_, by simpa using hpa, ?_, by simpa using hsa, ?_⟩
          · rw [hpt, hst]
            simp [List.append_assoc]
          · intro m hm
            simpa using hpb m hm
          · intro m hm
            simpa using hsb m hm

/-- The oracle for the C9 witness: all predecessors have signaled from the
second poll on. -/
def predReadyDemo : Nat → Bool := fun k => decide (1 ≤ k)

/-- The oracle for the C9 witness: all successors have signaled back from
the first poll on. -/
def succReadyDemo : Nat → Bool := fun _ => true

/-- Witness for `andand_two_phase_rendezvous` at the demo oracles. -/
theorem andand_two_phase_rendezvous_witness :
    ∃ a b, [BarEv.pollPreds false, BarEv.pollPreds true,
        BarEv.emitSuccessors, BarEv.pollSuccs true, BarEv.emitPredecessors]
          = List.replicate a (BarEv.pollPreds false)
            ++ [BarEv.pollPreds true, BarEv.emitSuccessors]
            ++ List.replicate b (BarEv.pollSuccs false)
            ++ [BarEv.pollSuccs true, BarEv.emitPredecessors]
      ∧ predReadyDemo a = true ∧ (∀ m, m < a → predReadyDemo m = false)
      ∧ succReadyDemo b = true ∧ (∀ m, m < b → succReadyDemo m = false) :=
  andand_two_phase_rendezvous predReadyDemo succReadyDemo 3
    [BarEv.pollPreds false, BarEv.pollPreds true, BarEv.emitSuccessors,
      BarEv.pollSuccs true, BarEv.emitPredecessors] (by rfl)

/-- Helper: along a chain of edges, every vertex after the start has an
in-neighbor among the vertices of the chain. -/
theorem chain_in_neighbor {R : Nat → Nat → Prop} :
    ∀ (v : Nat) (rest : List Nat), List.Chain R v rest →
      ∀ w ∈ rest, ∃ u ∈ v :: rest, R u w := by
  intro v rest
  induction rest generalizing v with
  | nil =>
      intro _ w hw
      simp at hw
  | cons b bs ih =>
      intro hchain w hw
      rw [List.chain_cons] at hchain
      obtain ⟨hvb, hbs⟩ := hchain
      rcases List.mem_cons.mp hw with rfl | hw2
      · exact ⟨v, List.mem_cons_self v _, hvb⟩
      · obtain ⟨u, hu, hR⟩ := ih b hbs w hw2
        exact ⟨u, List.mem_cons_of_mem v hu, hR⟩

/-- Helper: the Kahn elimination never completes while a set of vertices in
which every vertex has an in-neighbor (a trapped set, e.g. a cycle) stays
inside the remaining vertices — no member of the set can ever become a
source. -/
theorem kahn_stuck (g : Digraph) (S : List Nat) (hS : S ≠ [])
    (htrap : ∀ v ∈ S, ∃ u ∈ S, (u, v) ∈ g.edges) :
    ∀ fuel remaining, (∀ v ∈ S, v ∈ remaining) →
      kahn g fuel remaining = none := by
  intro fuel
  induction fuel with
  | zero =>
      intro remaining hsub
      obtain ⟨v0, hv0⟩ := List.exists_mem_of_ne_nil S hS
      have : remaining.isEmpty = false :=
        List.isEmpty_eq_false_iff_exists_mem.mpr ⟨v0, hsub v0 hv0⟩
      simp [kahn, this]
  | succ n ih =>
      intro remaining hsub
      obtain ⟨v0, hv0⟩ := List.exists_mem_of_ne_nil S hS
      have hne : remaining.isEmpty = false :=
        List.isEmpty_eq_false_iff_exists_mem.mpr ⟨v0, hsub v0 hv0⟩
      rw [kahn]
      rw [if_neg (by simp [hne])]
      cases hpick : pickSource g remaining with
      | none => rfl
      | some v =>
          have hmem : v ∈ remaining := List.mem_of_find?_eq_some hpick
          have hprop := List.find?_some hpick
          have hnosrc : ∀ u ∈ remaining, (u, v) ∉ g.edges := by
            intro u hu hedge
            have : remaining.any (fun u => decide ((u, v) ∈ g.edges))
                = true :=
              List.any_eq_true.mpr ⟨u, hu, by simpa using hedge⟩
            rw [this] at hprop
            simp at hprop
          have hvS : v ∉ S := by
            intro hvS
            obtain ⟨u, huS, hedge⟩ := htrap v hvS
            exact hnosrc u (hsub u huS) hedge
          have hsub2 : ∀ w ∈ S, w ∈ remaining.erase v := by
            intro w hw
            have hwv : w ≠ v := by
              intro hwv
              subst hwv
              exact hvS hw
            exact (List.mem_erase_of_ne hwv).mpr (hsub w hw)
          simp [ih (remaining.erase v) hsub2]

/-- Helper: the target of any edge of the built graph is among its
vertices — it is the id of one of the input nodes. -/
theorem edge_snd_in_verts (ns : List PNode) (u w : Nat)
    (h : (u, w) ∈ (buildGraph ns).edges) : w ∈ (buildGraph ns).verts := by
  simp only [buildGraph, List.mem_flatMap, List.mem_map] at h
  obtain ⟨n, hn, p, hp, heq⟩ := h
  injection heq with h1 h2
  simp only [buildGraph, List.mem_append, List.mem_map]
  exact Or.inl ⟨n, hn, h2⟩

/-- C5: whenever the predecessor relation declared by the input nodes
contains a cycle, `Pipeline.__init__` raises `InvalidNodeDependencyError`,
and the error is what the caller of construction receives. -/
theorem cyclic_pipeline_rejected (ns : List PNode) (v : Nat)
    (rest : List Nat) (hcyc : HasCycleOn (buildGraph ns) v rest) :
    Pipeline.init ns = Except.error invalidNodeDependencyMsg := by
  obtain ⟨hchain, hclose⟩ := hcyc
  have htrap : ∀ w ∈ v :: rest, ∃ u ∈ v :: rest,
      (u, w) ∈ (buildGraph ns).edges := by
    intro w hw
    rcases List.mem_cons.mp hw with rfl | hw2
    · exact ⟨(w :: rest).getLast (List.cons_ne_nil w rest),
        List.getLast_mem _, hclose⟩
    · exact chain_in_neighbor v rest hchain w hw2
  have hsub : ∀ w ∈ v :: rest, w ∈ (buildGraph ns).verts := by
    intro w hw
    obtain ⟨u, _, hedge⟩ := htrap w hw
    exact edge_snd_in_verts ns u w hedge
  have hkahn := kahn_stuck (buildGraph ns) (v :: rest)
    (List.cons_ne_nil v rest) htrap (buildGraph ns).verts.length
    (buildGraph ns).verts hsub
  have hdag : isDAG (buildGraph ns) = false := by
    simp [isDAG, hkahn]
  simp [Pipeline.init, hdag]

/-- The three-node cyclic input A → B → C → A used as the C5 witness. -/
def cyclicNodes : List PNode :=
  [{ id := 0, predecessors := [2] },
   { id := 1, predecessors := [0] },
   { id := 2, predecessors := [1] }]

/-- Witness for `cyclic_pipeline_rejected` on the 3-cycle. -/
theorem cyclic_pipeline_rejected_witness :
    Pipeline.init cyclicNodes = Except.error invalidNodeDependencyMsg :=
  cyclic_pipeline_rejected cyclicNodes 0 [1, 2]
    ⟨List.Chain.cons (by decide) (List.Chain.cons (by decide)
        List.Chain.nil),
      by decide⟩

end Anacostia
